import Mathlib

/-!
Shallow embedding of the recommendation pipeline of this repository
(src/dataProcessing.js, src/modelPrediction.js, src/modelTraining.js).

Modelling conventions:
* JavaScript numbers are modelled as exact rationals (`ℚ`).  `NaN` — which the
  source can produce via `parseFloat` on an unparseable token — is modelled as
  `none` in the type `Option ℚ`; a present finite value is `some q`.  The
  floating-point special value `Infinity` (reachable in JS only through the
  literal string form accepted by `parseFloat`, e.g. "Infinity", or through
  float overflow) is outside this idealized model: numeric parsing yields a
  finite rational or `none`.
* A raw CSV record (the `data` objects produced by `csv-parser` in
  `loadCustomerData`) is a string-keyed map whose values are strings:
  `Raw := String → Option String`, `none` meaning the field is absent.
* A processed customer record is a string-keyed JavaScript object holding
  numbers or strings: an association list `JSObj` with first-match lookup.
  An object built by spreads `{...a, ...b}` (later spread wins) is modelled
  as the reversed concatenation `b ++ a`.
* File I/O (CSV reading, catalog file, model artifact) is abstracted: the
  per-record mapping inside `loadCustomerData.on(end)` is embedded as
  `processCustomer`, the trained model as an opaque `predict` function, and
  the normalization artifact as an `Option NormData` argument.
-/

/-- Model of a raw CSV row: string keys to optional string values. -/
abbrev Raw := String → Option String

/-- Model of a JavaScript value stored in a processed customer object:
a number (`num none` is NaN) or a string. -/
inductive JSVal where
  | num (v : Option ℚ)
  | str (s : String)
deriving DecidableEq

/-- Model of a string-keyed JavaScript object as an association list;
lookup takes the first binding. -/
abbrev JSObj := List (String × JSVal)

/-- Property lookup `o[k]`; `none` models `undefined`. -/
def objGet (o : JSObj) (k : String) : Option JSVal :=
  (o.find? (fun kv => kv.1 == k)).map (fun kv => kv.2)

/-- JavaScript whitespace skipped by `parseInt`/`parseFloat` (ASCII subset). -/
def isWsJS (c : Char) : Bool := c == ' ' || c == '\t' || c == '\n' || c == '\r'

/-- Decimal digit `[0-9]`, as matched by the source's regexes and number parsing. -/
def isDigitJS (c : Char) : Bool := decide (48 ≤ c.toNat ∧ c.toNat ≤ 57)

/-- Letter `[A-Za-z]`, the character class of the unit part of the
`network_speed` regex `([\d\.]+)([A-Za-z]+)`. -/
def isAlphaJS (c : Char) : Bool :=
  decide ((65 ≤ c.toNat ∧ c.toNat ≤ 90) ∨ (97 ≤ c.toNat ∧ c.toNat ≤ 122))

/-- Character class `[\d\.]` of the numeric part of the `network_speed` regex. -/
def isNumChar (c : Char) : Bool := isDigitJS c || c == '.'

/-- Value of a string of decimal digits. -/
def digitsVal (ds : List Char) : ℕ := ds.foldl (fun a c => 10 * a + (c.toNat - 48)) 0

/-- Hexadecimal digit (for `parseInt`'s `0x` handling). -/
def isHexDigitJS (c : Char) : Bool :=
  isDigitJS c || decide ((97 ≤ c.toNat ∧ c.toNat ≤ 102) ∨ (65 ≤ c.toNat ∧ c.toNat ≤ 70))

/-- Value of one hexadecimal digit. -/
def hexDigitVal (c : Char) : ℕ :=
  if isDigitJS c then c.toNat - 48 else if decide (97 ≤ c.toNat) then c.toNat - 87 else c.toNat - 55

/-- Value of a string of hexadecimal digits. -/
def hexVal (ds : List Char) : ℕ := ds.foldl (fun a c => 16 * a + hexDigitVal c) 0

/-- Skip leading whitespace, as `parseInt`/`parseFloat` do. -/
def skipWs (l : List Char) : List Char := l.dropWhile isWsJS

/-- Consume an optional leading sign, returning the sign and the rest. -/
def parseSign : List Char → Int × List Char
  | '+' :: r => (1, r)
  | '-' :: r => (-1, r)
  | l => (1, l)

/-- Exponent part of a JS float literal: `e`/`E`, optional sign, digits.
If the digits are missing the exponent part is not part of the longest valid
prefix, so it contributes 0. -/
def expVal : List Char → Int
  | c :: r =>
    if c == 'e' || c == 'E' then
      let esg := (parseSign r).1
      let ed := (parseSign r).2.takeWhile isDigitJS
      if ed.isEmpty then 0 else esg * (digitsVal ed : Int)
    else 0
  | [] => 0

/-- Model of JavaScript `parseFloat` on a character list: longest valid prefix
of `[+-]? digits [. digits]? ([eE][+-]? digits)?` after leading whitespace;
`none` models NaN (no valid prefix).  The `Infinity` literal is outside the
idealized rational model (see the header comment). -/
def parseFloatL (l0 : List Char) : Option ℚ :=
  let l := skipWs l0
  let sg := (parseSign l).1
  let l1 := (parseSign l).2
  let ip := l1.takeWhile isDigitJS
  let l2 := l1.dropWhile isDigitJS
  let fp := match l2 with
    | '.' :: r => r.takeWhile isDigitJS
    | _ => []
  let l3 := match l2 with
    | '.' :: r => r.dropWhile isDigitJS
    | _ => l2
  if ip.isEmpty && fp.isEmpty then none
  else
    let mant : ℚ := (digitsVal ip : ℚ) + (digitsVal fp : ℚ) / ((10 : ℚ) ^ fp.length)
    some ((sg : ℚ) * mant * (10 : ℚ) ^ expVal l3)

/-- Model of `parseFloat` on a string. -/
def parseFloatJS (s : String) : Option ℚ := parseFloatL s.data

/-- Model of `parseFloat` applied to a possibly-absent raw field
(`parseFloat(undefined)` is NaN). -/
def parseFloatRaw (v : Option String) : Option ℚ := v.bind parseFloatJS

/-- Model of JavaScript `parseInt` (radix 10, with the implicit `0x`/`0X`
hexadecimal prefix of the default radix): leading whitespace, optional sign,
digits; `none` models NaN. -/
def parseIntL (l0 : List Char) : Option Int :=
  let l := skipWs l0
  let sg := (parseSign l).1
  let l1 := (parseSign l).2
  let dec :=
    let ds := l1.takeWhile isDigitJS
    if ds.isEmpty then none else some (sg * (digitsVal ds : Int))
  match l1 with
  | '0' :: c :: r =>
    if c == 'x' || c == 'X' then
      let hs := r.takeWhile isHexDigitJS
      if hs.isEmpty then none else some (sg * (hexVal hs : Int))
    else dec
  | _ => dec

/-- Model of `parseInt` on a string. -/
def parseIntJS (s : String) : Option Int := parseIntL s.data

/-- Model of `parseInt` applied to a possibly-absent raw field. -/
def parseIntRaw (v : Option String) : Option Int := v.bind parseIntJS

/-- Model of `parseInt(x) || 0`: NaN (and 0 itself, which is falsy) become 0. -/
def parseIntOr0 (v : Option String) : Int := (parseIntRaw v).getD 0

/-- Model of `x || 0` for a JS number `x`: NaN and 0 are falsy. -/
def jsNumOr0 (x : Option ℚ) : ℚ := x.getD 0

/-- Model of `x || y` for JS numbers: `x` unless `x` is falsy (NaN or 0). -/
def jsOrElse (x y : Option ℚ) : Option ℚ :=
  match x with
  | some q => if q = 0 then y else some q
  | none => y

/-- Model of `v && (...) ? s : d` string selection: first non-empty present
string in a `||` chain, else the default. -/
def strOr (v : Option String) (d : String) : String :=
  match v with
  | none => d
  | some s => if s = "" then d else s

/-- Model of `.toLowerCase()` on character lists (every string this pipeline
case-maps is ASCII, where JS `toLowerCase` agrees with `Char.toLower`). -/
def toLowerL (l : List Char) : List Char := l.map Char.toLower

/-- Model of `.toUpperCase()` on character lists (ASCII, as above). -/
def toUpperL (l : List Char) : List Char := l.map Char.toUpper

/-- Model of the boolean add-on flags of `loadCustomerData`:
`customer.f && (customer.f.toLowerCase() === 'true' || customer.f.toLowerCase() === '1') ? 1 : 0`
(string equality is compared on the character data). -/
def boolFlag (v : Option String) : ℚ :=
  match v with
  | none => 0
  | some s =>
    if s = "" then 0
    else if toLowerL s.data = ("true").data ∨ toLowerL s.data = ("1").data then 1 else 0

/-- Model of the raw state one-hot of `loadCustomerData`:
`customer.state && customer.state.toUpperCase() === state ? 1 : 0`. -/
def stateFlag (v : Option String) (st : String) : ℚ :=
  match v with
  | none => 0
  | some s => if s = "" then 0 else if toUpperL s.data = st.data then 1 else 0

/-- The fixed state vocabulary of the source. -/
def statesList : List String := ["TX", "CA", "CT", "FL", "OH", "IN", "PA", "WV", "IL", "NV"]

/-- Leftmost match of the regex `([\d\.]+)([A-Za-z]+)`: the first position
holding a `[\d\.]` character whose maximal `[\d\.]` run is immediately
followed by a letter; returns the two groups. -/
def matchSpeed : List Char → Option (List Char × List Char)
  | [] => none
  | c :: cs =>
    if isNumChar c then
      let ds := List.takeWhile isNumChar (c :: cs)
      let rest := List.dropWhile isNumChar (c :: cs)
      let us := rest.takeWhile isAlphaJS
      if us.isEmpty then matchSpeed cs else some (ds, us)
    else matchSpeed cs

/-- Model of the `network_speed` extraction of `loadCustomerData` (lines
32-46): 0 when the field is absent or empty or the regex does not match;
otherwise `parseFloat` of the numeric group, multiplied by 1000 when the
uppercased unit group is `G`, taken verbatim when it is `M`, and — by the
final `else` — also taken verbatim for any other unit.  The result is NaN
(`none`) when the matched numeric group is unparseable (e.g. only dots). -/
def networkSpeedOf (v : Option String) : Option ℚ :=
  match v with
  | none => some 0
  | some s =>
    if s = "" then some 0
    else
      match matchSpeed s.data with
      | none => some 0
      | some (ds, us) =>
        let speedValue := parseFloatL ds
        let speedUnit := us.map Char.toUpper
        if speedUnit = ['M'] then speedValue
        else if speedUnit = ['G'] then speedValue.map (fun q => q * 1000)
        else speedValue

/-- Model of the `coverage_size` derivation of `loadCustomerData` (lines
48-55): initialized to Medium, promoted to Large when `extenders >= 2 ||
totalDevices > 15`, else demoted to Small when `extenders === 0 &&
totalDevices <= 5`. -/
def coverageSizeOf (extenders totalDevices : Int) : String :=
  if 2 ≤ extenders ∨ 15 < totalDevices then "Large"
  else if extenders = 0 ∧ totalDevices ≤ 5 then "Small"
  else "Medium"

/-- Embedding of the per-record mapping inside `loadCustomerData` (lines
21-116): the object literal returned for one raw CSV row, in source order,
followed by the spread state one-hot entries. -/
def processCustomer (raw : Raw) : JSObj :=
  let wirelessClients := parseIntOr0 (raw ("wireless_clients_count"))
  let wiredClients := parseIntOr0 (raw ("wired_clients_count"))
  let totalDevices := wirelessClients + wiredClients
  let avgBandwidthUsage := jsNumOr0 (parseFloatRaw (raw ("rx_avg_bps")))
  let networkSpeed := networkSpeedOf (raw ("network_speed"))
  let extenders := parseIntOr0 (raw ("extenders"))
  let coverageSize := coverageSizeOf extenders totalDevices
  [("customerName", JSVal.str (strOr (raw ("CustomerName"))
      (strOr (raw ("customerName")) (strOr (raw ("customer_name")) (""))))),
   ("total_devices", JSVal.num (some (totalDevices : ℚ))),
   ("avg_bandwidth_usage", JSVal.num (some avgBandwidthUsage)),
   ("network_speed", JSVal.num networkSpeed),
   ("coverage_size", JSVal.str coverageSize),
   ("wifi_security", JSVal.num (some (boolFlag (raw ("wifi_security"))))),
   ("wifi_security_plus", JSVal.num (some (boolFlag (raw ("wifi_security_plus"))))),
   ("total_shield", JSVal.num (some (boolFlag (raw ("total_shield"))))),
   ("rx_avg_bps", JSVal.num (some (jsNumOr0 (jsOrElse (parseFloatRaw (raw ("rx_avg_bps")))
      (parseFloatRaw (raw ("rxAvgBps"))))))),
   ("tx_avg_bps", JSVal.num (some (jsNumOr0 (parseFloatRaw (raw ("tx_avg_bps")))))),
   ("rx_p95_bps", JSVal.num (some (jsNumOr0 (parseFloatRaw (raw ("rx_p95_bps")))))),
   ("tx_p95_bps", JSVal.num (some (jsNumOr0 (parseFloatRaw (raw ("tx_p95_bps")))))),
   ("rx_max_bps", JSVal.num (some (jsNumOr0 (parseFloatRaw (raw ("rx_max_bps")))))),
   ("tx_max_bps", JSVal.num (some (jsNumOr0 (parseFloatRaw (raw ("tx_max_bps")))))),
   ("rssi_mean", JSVal.num (some (jsNumOr0 (parseFloatRaw (raw ("rssi_mean")))))),
   ("rssi_median", JSVal.num (some (jsNumOr0 (parseFloatRaw (raw ("rssi_median")))))),
   ("rssi_max", JSVal.num (some (jsNumOr0 (parseFloatRaw (raw ("rssi_max")))))),
   ("rssi_min", JSVal.num (some (jsNumOr0 (parseFloatRaw (raw ("rssi_min"))))))]
  ++ statesList.map (fun st => ("state_" ++ st, JSVal.num (some (stateFlag (raw ("state")) st))))

/-- The coverage-size vocabulary of `preprocessCustomers`. -/
def coverageSizesList : List String := ["Small", "Medium", "Large"]

/-- Model of the `customer.coverage_size.toLowerCase()` access of
`preprocessCustomers` (dataProcessing.js line 211): a present string value
succeeds; an absent (`undefined`) or non-string value makes the source throw
a TypeError, modelled as `none`. -/
def coverageSizeStr? (customer : JSObj) : Option String :=
  match objGet customer ("coverage_size") with
  | some (JSVal.str s) => some s
  | _ => none

/-- Body of the per-record mapping of `preprocessCustomers` (dataProcessing.js
lines 204-229) once the `coverage_size` string `cs` has been read.  The
spreads `{...customer, ...coverageSizeOneHot, ...stateOneHot}` (later spread
wins) are modelled as first-match lookup on the reversed concatenation. -/
def preprocessCustomerWith (customer : JSObj) (cs : String) : JSObj :=
  let coverageBlock := coverageSizesList.map (fun sz =>
    ("coverage_size_" ++ sz,
     JSVal.num (some (if toLowerL cs.data = toLowerL sz.data then 1 else 0))))
  let stateBlock := statesList.map (fun st =>
    ("state_" ++ st,
     JSVal.num (some (if objGet customer ("state_" ++ st) = some (JSVal.num (some 1)) then 1 else 0))))
  stateBlock ++ coverageBlock ++ customer

/-- Faithful per-record `preprocessCustomers`, throw included: `none` models
the TypeError raised at `customer.coverage_size.toLowerCase()` when the
record lacks a string `coverage_size`. -/
def preprocessCustomer? (customer : JSObj) : Option JSObj :=
  (coverageSizeStr? customer).map (preprocessCustomerWith customer)

/-- Per-record `preprocessCustomers` restricted to records that carry a
string `coverage_size` — every record produced by `processCustomer` does.
On such records `preprocessCustomer? customer = some (preprocessCustomer
customer)`; on a record without one the source throws (see
`preprocessCustomer?`) and this total convenience wrapper is not a model of
it — no theorem applies it there. -/
def preprocessCustomer (customer : JSObj) : JSObj :=
  preprocessCustomerWith customer ((coverageSizeStr? customer).getD (""))

/-- The full extraction of the spec's Extractor component: the raw-record
mapping of `loadCustomerData` followed by the one-hot pass of
`preprocessCustomers` (the composition applied per request in
`getRecommendations`). -/
def extractFeatures (raw : Raw) : JSObj := preprocessCustomer (processCustomer raw)

/-- The ordered continuous feature schema (modelPrediction.js lines 139-152,
identical to modelTraining.js lines 41-54). -/
def continuousFeatures : List String :=
  ["total_devices", "avg_bandwidth_usage", "network_speed", "tx_avg_bps",
   "rx_p95_bps", "tx_p95_bps", "rx_max_bps", "tx_max_bps",
   "rssi_mean", "rssi_median", "rssi_max", "rssi_min"]

/-- The ordered categorical feature schema (modelPrediction.js lines 153-168). -/
def categoricalFeatures : List String :=
  ["coverage_size_Small", "coverage_size_Medium", "coverage_size_Large",
   "state_TX", "state_CA", "state_CT", "state_FL", "state_OH",
   "state_IN", "state_PA", "state_WV", "state_IL", "state_NV"]

/-- Model of `preprocessedCustomer[feature] || 0`: an absent property
(`undefined`) and NaN are falsy and give 0, as does the number 0 itself.
A non-empty string-valued property would be kept by the JS `||` (and later
make tensor construction fail); this ℚ-valued model returns 0 there instead,
a divergence that no schema key of an `extractFeatures` record can reach
(their values are always numbers, see `c2_extract_schema_keys`) and that no
theorem's conclusion depends on. -/
def jsOrZero (v : Option JSVal) : ℚ :=
  match v with
  | some (JSVal.num (some q)) => q
  | _ => 0

/-- The schema keys whose value is `parseFloat(customer.k) || 0` of the
same-named raw field (dataProcessing.js lines 103-111). -/
def floatFeatureKeys : List String :=
  ["tx_avg_bps", "rx_p95_bps", "tx_p95_bps", "rx_max_bps", "tx_max_bps",
   "rssi_mean", "rssi_median", "rssi_max", "rssi_min"]

/-- A catalog product as built by `loadProductData` (name, feature phrases,
price), loaded once at startup. -/
structure Product where
  name : String
  features : List String
  price : ℚ
deriving DecidableEq

/-- An element of the `rankedProducts` array of `getRecommendations` (lines
205-211): before sorting, `rank` is the temporary value `index + 1`, i.e. one
plus the catalog position. -/
structure RankedProduct where
  rank : ℕ
  productName : String
  score : ℚ
  features : List String
  price : ℚ
deriving DecidableEq

/-- Embedding of `products.map((product, index) => ({rank: index + 1,
productName: product.name, score: predictionArray[index], ...}))`, carrying
the running index `k`. -/
def mkRankedFrom (scores : List ℚ) : ℕ → List Product → List RankedProduct
  | _, [] => []
  | k, p :: ps =>
    { rank := k + 1, productName := p.name, score := scores.getD k 0,
      features := p.features, price := p.price } :: mkRankedFrom scores (k + 1) ps

/-- One insertion step of the stable descending sort: the element `x` walks
past every element with strictly greater score and lands before the first
element whose score is less than or equal to its own.  This is the unique
stable order produced by `Array.prototype.sort((a, b) => b.score - a.score)`
(negative comparator result puts `a` first; the ECMAScript sort is stable,
so equal scores keep their prior relative order). -/
def insertScored (x : RankedProduct) : List RankedProduct → List RankedProduct
  | [] => [x]
  | y :: ys => if x.score < y.score then y :: insertScored x ys else x :: y :: ys

/-- The stable descending sort on scores (semantics of line 214
`rankedProducts.sort((a, b) => b.score - a.score)`). -/
def sortScored : List RankedProduct → List RankedProduct
  | [] => []
  | x :: xs => insertScored x (sortScored xs)

/-- Embedding of `rankedProducts.forEach((product, index) => { product.rank
= index + 1; })` (lines 217-219), with running index `k`. -/
def rankUpdateFrom : ℕ → List RankedProduct → List RankedProduct
  | _, [] => []
  | k, r :: rs => { r with rank := k + 1 } :: rankUpdateFrom (k + 1) rs

/-- Rank reassignment after sorting. -/
def rankUpdate (l : List RankedProduct) : List RankedProduct := rankUpdateFrom 0 l

/-- The mutable state touched by the ranking part of `getRecommendations`:
the shared product catalog and the request-local `rankedProducts` array.
The source never assigns to `products` or to a catalog product; each step
below writes only the `ranked` component. -/
structure ServeState where
  catalog : List Product
  ranked : List RankedProduct
deriving DecidableEq

/-- Step 1 (lines 205-211): build the fresh `rankedProducts` array from the
catalog and the prediction scores. -/
def buildRankedSt (scores : List ℚ) (s : ServeState) : ServeState :=
  { s with ranked := mkRankedFrom scores 0 s.catalog }

/-- Step 2 (line 214): sort `rankedProducts` in place. -/
def sortRankedSt (s : ServeState) : ServeState :=
  { s with ranked := sortScored s.ranked }

/-- Step 3 (lines 217-219): overwrite the `rank` fields. -/
def updateRanksSt (s : ServeState) : ServeState :=
  { s with ranked := rankUpdate s.ranked }

/-- The ranking stages of `getRecommendations` in source order. -/
def serveSteps (scores : List ℚ) (s : ServeState) : ServeState :=
  updateRanksSt (sortRankedSt (buildRankedSt scores s))

/-- Prefix check on character lists (helper for `String.prototype.includes`). -/
def startsWithL : List Char → List Char → Bool
  | [], _ => true
  | _ :: _, [] => false
  | p :: ps, c :: cs => p == c && startsWithL ps cs

/-- Substring occurrence on character lists. -/
def containsL (pat : List Char) : List Char → Bool
  | [] => startsWithL pat []
  | c :: cs => startsWithL pat (c :: cs) || containsL pat cs

/-- Model of `s.includes(pat)` on character lists. -/
def includesL (s pat : List Char) : Bool := containsL pat s

/-- The template selected by `generateAIExplanation` (lines 270-294).  Each
constructor stands for one branch of the if/else chain (its appended template
sentence); `generic` is the final `else` that lists the product features. -/
inductive ExplBranch where
  | fiber
  | wholeHomeWifi
  | securityPlus
  | security
  | totalShield
  | premiumTechPro
  | identityProtection
  | youtubeTv
  | additionalExtender
  | batteryBackup
  | unbreakableWifi
  | generic
deriving DecidableEq

/-- The keyword dispatch of `generateAIExplanation` on the lowercased product
name, in exact source order (lines 270-294).  The interpolated sentence bodies
are abstracted to their selecting branch: every claim about this function
concerns only which template is chosen. -/
def explBranch (productName : String) : ExplBranch :=
  let n := toLowerL productName.data
  if includesL n ("fiber").data then ExplBranch.fiber
  else if includesL n ("whole-home wi-fi").data then ExplBranch.wholeHomeWifi
  else if includesL n ("wi-fi security plus").data then ExplBranch.securityPlus
  else if includesL n ("wi-fi security").data then ExplBranch.security
  else if includesL n ("total shield").data then ExplBranch.totalShield
  else if includesL n ("my premium tech pro").data then ExplBranch.premiumTechPro
  else if includesL n ("identity protection").data then ExplBranch.identityProtection
  else if includesL n ("youtube tv").data then ExplBranch.youtubeTv
  else if includesL n ("additional extender").data then ExplBranch.additionalExtender
  else if includesL n ("battery back-up for unbreakable wi-fi").data then ExplBranch.batteryBackup
  else if includesL n ("unbreakable wi-fi").data then ExplBranch.unbreakableWifi
  else ExplBranch.generic

/-- Embedding of `generateAIExplanation(customer, product)`: the customer
record only feeds the interpolated values inside the chosen sentence, never
the choice itself, which depends solely on `product.productName`. -/
def generateAIExplanation (customer : JSObj) (product : RankedProduct) : ExplBranch :=
  explBranch product.productName

/-- The normalization artifact `normalizationData.json` written by
`trainModel` (inputMax/inputMin arrays in continuous-schema order). -/
structure NormData where
  inputMax : List ℚ
  inputMin : List ℚ
deriving DecidableEq

/-- The epsilon constant `1e-8` of the source. -/
def eps : ℚ := 1 / 100000000

/-- Embedding of lines 190-192: `denom = max - min; safeDenom = denom +
(denom == 0) * 1e-8` — the epsilon is added only when the denominator is
exactly zero. -/
def safeDenom (mn mx : ℚ) : ℚ := (mx - mn) + (if mx - mn = 0 then 1 else 0) * eps

/-- Elementwise normalization `(value - min) / safeDenom` (line 194). -/
def normalizeVal (mn mx v : ℚ) : ℚ := (v - mn) / safeDenom mn mx

/-- The elementwise tensor normalization over the continuous feature vector. -/
def normalizeVec : List ℚ → List ℚ → List ℚ → List ℚ
  | mn :: mns, mx :: mxs, v :: vs => normalizeVal mn mx v :: normalizeVec mns mxs vs
  | _, _, _ => []

/-- The continuous input slice `continuousFeatures.map(f => customer[f] || 0)`. -/
def inputContinuousOf (pre : JSObj) : List ℚ :=
  continuousFeatures.map (fun f => jsOrZero (objGet pre f))

/-- The categorical input slice `categoricalFeatures.map(f => customer[f] || 0)`. -/
def inputCategoricalOf (pre : JSObj) : List ℚ :=
  categoricalFeatures.map (fun f => jsOrZero (objGet pre f))

/-- The model input vector: normalized continuous block concatenated with the
categorical block (lines 186-198). -/
def inputVec (pre : JSObj) (nd : NormData) : List ℚ :=
  normalizeVec nd.inputMin nd.inputMax (inputContinuousOf pre) ++ inputCategoricalOf pre

/-- An element of the final response array (lines 222-231): rank, product
name, score, price and explanation — product `features` are not included. -/
structure FinalRec where
  rank : ℕ
  productName : String
  score : ℚ
  price : ℚ
  explanation : ExplBranch
deriving DecidableEq

/-- Embedding of `getRecommendations(customer, products)` (lines 132-247).
The trained model is abstracted as the `predict` function (its lazy loading
is outside this model; a load failure only surfaces at `model.predict`,
after the branches modelled here) and the normalization artifact as
`normData`: `loadNormalizationData` returns the parsed JSON when the file
exists and `null` (`none`) otherwise (lines 112-124).  The result models the
async function's promise: `none` is a rejected promise — the TypeError
thrown inside `preprocessCustomers` (line 136 here, line 211 of
dataProcessing.js) when the customer record lacks a string `coverage_size`,
raised before the normalization check — and `some` a resolved value.  When
normalization data is `null` the source logs an error and resolves with the
empty array (lines 180-183); no exception is raised on that path. -/
def getRecommendations (customer : JSObj) (products : List Product)
    (normData : Option NormData) (predict : List ℚ → List ℚ) : Option (List FinalRec) :=
  match preprocessCustomer? customer with
  | none => none
  | some preprocessedCustomer =>
    match normData with
    | none => some []
    | some nd =>
      let predictionArray := predict (inputVec preprocessedCustomer nd)
      let s := serveSteps predictionArray { catalog := products, ranked := [] }
      some (s.ranked.map (fun r =>
        { rank := r.rank, productName := r.productName, score := r.score,
          price := r.price, explanation := generateAIExplanation preprocessedCustomer r }))

/-- The spec's wording of the normalization denominator, for comparison with
the source's `safeDenom`: `(value - min) / max(max - min, 1e-8)`. -/
def specNormalize (mn mx v : ℚ) : ℚ := (v - mn) / max (mx - mn) eps

/-- Sample raw record whose only field is an unparseable-but-matching
network speed string. -/
def rawDotM : Raw := fun k => if k = "network_speed" then some (".M") else none

/-- Sample raw record with every field absent. -/
def rawEmpty : Raw := fun _ => none

/-- Sample catalog products. -/
def prodFiber : Product := { name := "Fiber 500", features := [], price := 45 }

def prodA : Product := { name := "A", features := [], price := 1 }

def prodB : Product := { name := "B", features := [], price := 2 }

def prodC : Product := { name := "C", features := [], price := 3 }

def prods4 : List Product := [prodA, prodB, prodC]

def scores4 : List ℚ := [1, 2, 1]

/-- Sample ranked product named Wi-Fi Security Plus. -/
def prodWSP : RankedProduct :=
  { rank := 1, productName := "Wi-Fi Security Plus", score := 0, features := [], price := 10 }

/-- Sample predict function. -/
def predictZero : List ℚ → List ℚ := fun _ => []

/-! ### Helper lemmas -/

theorem takeWhile_of_all {p : Char → Bool} : ∀ {l : List Char}, (∀ c ∈ l, p c = true) →
    l.takeWhile p = l := by
  intro l
  induction l with
  | nil => intro _; rfl
  | cons a l ih =>
    intro h
    simp only [List.takeWhile_cons]
    rw [h a (List.mem_cons_self a l)]
    simp [ih (fun c hc => h c (List.mem_cons_of_mem a hc))]

theorem takeWhile_append_eq {p : Char → Bool} :
    ∀ (l₁ l₂ : List Char), (∀ c ∈ l₁, p c = true) →
    (∀ c, l₂.head? = some c → p c = false) →
    (l₁ ++ l₂).takeWhile p = l₁ ∧ (l₁ ++ l₂).dropWhile p = l₂ := by
  intro l₁
  induction l₁ with
  | nil =>
    intro l₂ _ h₂
    cases l₂ with
    | nil => exact ⟨rfl, rfl⟩
    | cons c cs =>
      simp only [List.nil_append, List.takeWhile_cons, List.dropWhile_cons, h₂ c rfl]
      exact ⟨rfl, rfl⟩
  | cons a l ih =>
    intro l₂ h₁ h₂
    have ha : p a = true := h₁ a (List.mem_cons_self a l)
    have hrest := ih l₂ (fun c hc => h₁ c (List.mem_cons_of_mem a hc)) h₂
    simp only [List.cons_append, List.takeWhile_cons, List.dropWhile_cons, ha, if_true]
    exact ⟨by rw [hrest.1], by rw [hrest.2]⟩

theorem isNumChar_false_of_alpha {c : Char} (h : isAlphaJS c = true) : isNumChar c = false := by
  simp only [isAlphaJS, decide_eq_true_eq] at h
  simp only [isNumChar, isDigitJS, Bool.or_eq_false_iff, decide_eq_false_iff_not, beq_eq_false_iff_ne]
  constructor
  · omega
  · intro hc
    subst hc
    have hv : ('.').toNat = 46 := rfl
    omega

theorem matchSpeed_append {ds us : List Char} (hds : ds ≠ [])
    (hd : ∀ c ∈ ds, isNumChar c = true) (hus : us ≠ [])
    (hu : ∀ c ∈ us, isAlphaJS c = true) :
    matchSpeed (ds ++ us) = some (ds, us) := by
  cases ds with
  | nil => exact absurd rfl hds
  | cons d ds1 =>
    have hdnum : isNumChar d = true := hd d (List.mem_cons_self d ds1)
    have h₂ : ∀ c, us.head? = some c → isNumChar c = false := by
      intro c hc
      cases us with
      | nil => cases hc
      | cons u us1 =>
        have hcu : c = u := by
          simp only [List.head?] at hc
          exact (Option.some.inj hc).symm
        rw [hcu]
        exact isNumChar_false_of_alpha (hu u (List.mem_cons_self u us1))
    obtain ⟨htake, hdrop⟩ := takeWhile_append_eq (d :: ds1) us hd h₂
    have hcons : (d :: ds1) ++ us = d :: (ds1 ++ us) := rfl
    rw [hcons]
    unfold matchSpeed
    rw [hdnum]
    simp only [if_true]
    rw [← hcons, htake, hdrop, takeWhile_of_all hu]
    cases us with
    | nil => exact absurd rfl hus
    | cons u us1 => simp

theorem networkSpeedOf_match {s : String} {ds us : List Char}
    (hs : s.data = ds ++ us) (hds : ds ≠ []) (hd : ∀ c ∈ ds, isNumChar c = true)
    (hus : us ≠ []) (hu : ∀ c ∈ us, isAlphaJS c = true) :
    networkSpeedOf (some s) =
      (if us.map Char.toUpper = ['M'] then parseFloatL ds
       else if us.map Char.toUpper = ['G'] then (parseFloatL ds).map (fun q => q * 1000)
       else parseFloatL ds) := by
  have hne : s ≠ "" := by
    intro h
    subst h
    cases ds with
    | nil => exact hds rfl
    | cons a l => simp at hs
  simp only [networkSpeedOf]
  rw [if_neg hne, hs, matchSpeed_append hds hd hus hu]

theorem insertScored_perm (x : RankedProduct) :
    ∀ l : List RankedProduct, List.Perm (insertScored x l) (x :: l) := by
  intro l
  induction l with
  | nil => exact List.Perm.refl _
  | cons y ys ih =>
    unfold insertScored
    by_cases h : x.score < y.score
    · rw [if_pos h]
      exact (ih.cons y).trans (List.Perm.swap x y ys)
    · rw [if_neg h]

theorem sortScored_perm : ∀ l : List RankedProduct, List.Perm (sortScored l) l := by
  intro l
  induction l with
  | nil => exact List.Perm.refl _
  | cons x xs ih =>
    unfold sortScored
    exact (insertScored_perm x (sortScored xs)).trans (ih.cons x)

theorem mem_insertScored {a x : RankedProduct} {l : List RankedProduct}
    (h : a ∈ insertScored x l) : a = x ∨ a ∈ l := by
  have := (insertScored_perm x l).mem_iff.mp h
  simpa using this

/-- The order that the stable descending sort establishes between any two
positions of its output: strictly greater score first, and on score ties the
element carrying the smaller (earlier) temporary rank first. -/
def ordD (a b : RankedProduct) : Prop :=
  b.score < a.score ∨ (a.score = b.score ∧ a.rank < b.rank)

theorem pairwise_insertScored {x : RankedProduct} {l : List RankedProduct}
    (hl : l.Pairwise ordD) (hx : ∀ y ∈ l, x.rank < y.rank) :
    (insertScored x l).Pairwise ordD := by
  induction l with
  | nil => simp [insertScored]
  | cons y ys ih =>
    rw [List.pairwise_cons] at hl
    unfold insertScored
    by_cases h : x.score < y.score
    · rw [if_pos h]
      rw [List.pairwise_cons]
      constructor
      · intro z hz
        rcases mem_insertScored hz with rfl | hz2
        · exact Or.inl h
        · exact hl.1 z hz2
      · exact ih hl.2 (fun y2 hy2 => hx y2 (List.mem_cons_of_mem y hy2))
    · rw [if_neg h]
      rw [List.pairwise_cons]
      constructor
      · intro z hz
        rcases List.mem_cons.mp hz with rfl | hz2
        · rcases lt_or_eq_of_le (le_of_not_lt h) with hlt | heq
          · exact Or.inl hlt
          · exact Or.inr ⟨heq.symm, hx z (List.mem_cons_self z ys)⟩
        · rcases hl.1 z hz2 with hlt | ⟨heq, _⟩
          · rcases lt_or_eq_of_le (le_of_not_lt h) with hlt2 | heq2
            · exact Or.inl (hlt.trans hlt2)
            · exact Or.inl (heq2 ▸ hlt)
          · rcases lt_or_eq_of_le (le_of_not_lt h) with hlt2 | heq2
            · exact Or.inl (heq ▸ hlt2)
            · exact Or.inr ⟨(heq2.symm.trans heq).symm ▸ rfl, hx z (List.mem_cons_of_mem y hz2)⟩
      · rw [List.pairwise_cons]
        exact ⟨hl.1, hl.2⟩

theorem pairwise_sortScored {l : List RankedProduct}
    (hl : l.Pairwise (fun a b => a.rank < b.rank)) : (sortScored l).Pairwise ordD := by
  induction l with
  | nil => simp [sortScored]
  | cons x xs ih =>
    rw [List.pairwise_cons] at hl
    unfold sortScored
    refine pairwise_insertScored (ih hl.2) ?_
    intro y hy
    exact hl.1 y ((sortScored_perm xs).mem_iff.mp hy)

theorem mkRankedFrom_rank_gt (scores : List ℚ) :
    ∀ (k : ℕ) (ps : List Product), ∀ r ∈ mkRankedFrom scores k ps, k < r.rank := by
  intro k ps
  induction ps generalizing k with
  | nil => intro r hr; cases hr
  | cons p ps ih =>
    intro r hr
    rcases List.mem_cons.mp hr with rfl | hr2
    · exact Nat.lt_succ_self k
    · exact Nat.lt_of_succ_lt (ih (k + 1) r hr2)

theorem mkRankedFrom_pairwise (scores : List ℚ) :
    ∀ (k : ℕ) (ps : List Product),
    (mkRankedFrom scores k ps).Pairwise (fun a b => a.rank < b.rank) := by
  intro k ps
  induction ps generalizing k with
  | nil => simp [mkRankedFrom]
  | cons p ps ih =>
    rw [mkRankedFrom, List.pairwise_cons]
    exact ⟨fun r hr => mkRankedFrom_rank_gt scores (k + 1) ps r hr, ih (k + 1)⟩

theorem mkRankedFrom_length (scores : List ℚ) :
    ∀ (k : ℕ) (ps : List Product), (mkRankedFrom scores k ps).length = ps.length := by
  intro k ps
  induction ps generalizing k with
  | nil => rfl
  | cons p ps ih => simp [mkRankedFrom, ih]

theorem mkRankedFrom_map_name (scores : List ℚ) :
    ∀ (k : ℕ) (ps : List Product),
    (mkRankedFrom scores k ps).map (fun r => r.productName) = ps.map (fun p => p.name) := by
  intro k ps
  induction ps generalizing k with
  | nil => rfl
  | cons p ps ih => simp [mkRankedFrom, ih]

theorem rankUpdateFrom_length :
    ∀ (k : ℕ) (l : List RankedProduct), (rankUpdateFrom k l).length = l.length := by
  intro k l
  induction l generalizing k with
  | nil => rfl
  | cons r rs ih => simp [rankUpdateFrom, ih]

theorem rankUpdateFrom_map_rank :
    ∀ (k : ℕ) (l : List RankedProduct),
    (rankUpdateFrom k l).map (fun r => r.rank) = List.range' (k + 1) l.length := by
  intro k l
  induction l generalizing k with
  | nil => rfl
  | cons r rs ih => simp [rankUpdateFrom, List.range'_succ, ih]

theorem rankUpdateFrom_map_name :
    ∀ (k : ℕ) (l : List RankedProduct),
    (rankUpdateFrom k l).map (fun r => r.productName) = l.map (fun r => r.productName) := by
  intro k l
  induction l generalizing k with
  | nil => rfl
  | cons r rs ih => simp [rankUpdateFrom, ih]

theorem sortScored_length (l : List RankedProduct) :
    (sortScored l).length = l.length := (sortScored_perm l).length_eq

/-- On extractor-produced records the faithful (throw-aware) preprocessing
succeeds and agrees with the total composition `extractFeatures`: they always
carry a string `coverage_size`, so the TypeError path cannot fire. -/
theorem preprocessCustomer?_processCustomer (raw : Raw) :
    preprocessCustomer? (processCustomer raw) = some (extractFeatures raw) := rfl

theorem objGet_processCustomer_state (raw : Raw) (st : String) (hmem : st ∈ statesList) :
    objGet (processCustomer raw) ("state_" ++ st) =
      some (JSVal.num (some (stateFlag (raw ("state")) st))) := by
  fin_cases hmem <;> rfl

theorem objGet_extract_state (raw : Raw) (st : String) (hmem : st ∈ statesList) :
    objGet (extractFeatures raw) ("state_" ++ st) =
      some (JSVal.num (some (if objGet (processCustomer raw) ("state_" ++ st) =
        some (JSVal.num (some 1)) then 1 else 0))) := by
  fin_cases hmem <;> rfl

/-! ### Claim theorems -/

/-- C1 (amended): when the normalization-parameters artifact is missing
(`loadNormalizationData` returned null), `getRecommendations` does not signal
an error to its caller: for every customer record on which the preceding
preprocessing step does not throw (one carrying a string `coverage_size` —
in particular every record produced by the extractor, the only records the
serving layer passes in) and every non-empty catalog, it logs and resolves
normally with exactly the empty recommendation list (`some []`, never the
rejected promise `none`). -/
theorem c1_missing_norm_returns_empty :
    (∀ (customer : JSObj) (products : List Product) (predict : List ℚ → List ℚ),
       products ≠ [] → (∃ cs, coverageSizeStr? customer = some cs) →
       getRecommendations customer products none predict = some []) ∧
    (∀ (raw : Raw) (products : List Product) (predict : List ℚ → List ℚ),
       products ≠ [] →
       getRecommendations (processCustomer raw) products none predict = some []) := by
  constructor
  · intro customer products predict _ hpre
    obtain ⟨cs, hcs⟩ := hpre
    unfold getRecommendations preprocessCustomer?
    rw [hcs]
    rfl
  · intro raw products predict _
    rfl

/-- C1 counterexample: the claim as stated — a missing normalization artifact
makes `getRecommendations` yield an error/exception rather than the empty
sequence — is false at a concrete loader-produced customer record and
non-empty catalog: the call resolves normally with the empty array (`some
[]`, not the rejected-promise value `none`). -/
theorem c1_counterexample :
    getRecommendations (processCustomer rawEmpty) [prodFiber] none predictZero = some [] ∧
    ([prodFiber] : List Product) ≠ [] ∧
    getRecommendations (processCustomer rawEmpty) [prodFiber] none predictZero ≠ none := by
  refine ⟨rfl, by simp, ?_⟩
  rw [show getRecommendations (processCustomer rawEmpty) [prodFiber] none predictZero =
    some [] from rfl]
  simp

/-- C1 witness. -/
theorem c1_witness :
    getRecommendations (processCustomer rawEmpty) [prodFiber] none predictZero = some [] :=
  c1_missing_norm_returns_empty.2 rawEmpty [prodFiber] predictZero (by simp)

/-- C6 (amended): the normalized output is `(v - min) / d` where `d` is
`max - min` when that difference is nonzero and the epsilon 1e-8 only when it
is exactly zero (the source adds `(denom == 0) * 1e-8` to the denominator, it
does not take a max with 1e-8); in particular for a feature with stored
min = max the denominator is the nonzero epsilon, so no division by zero
occurs and the result is the finite value `(v - min) / eps`. -/
theorem c6_normalization_formula :
    (∀ mn mx v : ℚ, normalizeVal mn mx v =
        (v - mn) / (if mx - mn = 0 then eps else mx - mn)) ∧
    (∀ mn v : ℚ, safeDenom mn mn = eps ∧ safeDenom mn mn ≠ 0 ∧
        normalizeVal mn mn v = (v - mn) / eps) := by
  constructor
  · intro mn mx v
    unfold normalizeVal safeDenom
    split_ifs with h
    · rw [h]
      ring_nf
    · ring_nf
  · intro mn v
    have h1 : safeDenom mn mn = eps := by
      unfold safeDenom
      simp
    refine ⟨h1, ?_, ?_⟩
    · rw [h1]
      unfold eps
      norm_num
    · unfold normalizeVal
      rw [h1]

/-- C6 counterexample: for stored min 0 and max 1e-9 (a positive denominator
smaller than epsilon) the source divides by 1e-9 while the claimed formula
`(v - min) / max(max - min, 1e-8)` divides by 1e-8, so they differ at v = 1. -/
theorem c6_counterexample :
    normalizeVal 0 (1 / 1000000000) 1 = 1000000000 ∧
    specNormalize 0 (1 / 1000000000) 1 = 100000000 ∧
    normalizeVal 0 (1 / 1000000000) 1 ≠ specNormalize 0 (1 / 1000000000) 1 := by
  have h1 : normalizeVal 0 (1 / 1000000000) 1 = 1000000000 := by
    unfold normalizeVal safeDenom eps
    rw [if_neg (by norm_num : ¬((1 : ℚ) / 1000000000 - 0 = 0))]
    norm_num
  have h2 : specNormalize 0 (1 / 1000000000) 1 = 100000000 := by
    unfold specNormalize eps
    rw [max_eq_right (by norm_num)]
    norm_num
  refine ⟨h1, h2, ?_⟩
  rw [h1, h2]
  norm_num

/-- C7: for normalization parameters with min < max pointwise, normalizing
the vector of stored minima yields 0 in every continuous component. -/
theorem c7_roundtrip_min (mins maxs : List ℚ)
    (h : List.Forall₂ (fun a b => a < b) mins maxs) :
    normalizeVec mins maxs mins = List.replicate mins.length 0 := by
  induction h with
  | nil => rfl
  | cons hab htail ih =>
    simp only [normalizeVec, List.length_cons, List.replicate_succ, ih]
    simp [normalizeVal]

/-- C7 witness. -/
theorem c7_witness :
    normalizeVec [0, 2] [1, 5] [0, 2] = List.replicate (([0, 2] : List ℚ).length) 0 :=
  c7_roundtrip_min [0, 2] [1, 5] (by norm_num [List.forall₂_cons])

/-- C8: the explanation dispatch tests `wi-fi security plus` before
`wi-fi security`, so a product named Wi-Fi Security Plus always receives the
security-plus template of the chain and never the plain security template
(the two are distinct branches). -/
theorem c8_security_plus_precedence (customer : JSObj) (product : RankedProduct)
    (h : product.productName = "Wi-Fi Security Plus") :
    generateAIExplanation customer product = ExplBranch.securityPlus ∧
    ExplBranch.securityPlus ≠ ExplBranch.security := by
  unfold generateAIExplanation
  rw [h]
  exact ⟨by decide, by decide⟩

/-- C8 witness. -/
theorem c8_witness :
    generateAIExplanation [] prodWSP = ExplBranch.securityPlus ∧
    ExplBranch.securityPlus ≠ ExplBranch.security :=
  c8_security_plus_precedence [] prodWSP rfl

/-- C9 (amended): the extracted `coverage_size` is exactly
`coverageSizeOf extenders (wireless + wired)` on the parsed counts; the
category is Large iff extenders >= 2 or total devices > 15, else Small iff
extenders = 0 and total devices <= 5, else Medium; Large takes precedence
over Small; and when the extender and client-count fields are all absent or
unparseable they parse to 0, so the category is Small (not Medium as the
claim's parenthetical asserts). -/
theorem c9_coverage_size_rules :
    (∀ raw : Raw, objGet (extractFeatures raw) ("coverage_size") =
        some (JSVal.str (coverageSizeOf (parseIntOr0 (raw ("extenders")))
          (parseIntOr0 (raw ("wireless_clients_count")) +
           parseIntOr0 (raw ("wired_clients_count")))))) ∧
    (∀ ext tot : Int,
        (coverageSizeOf ext tot = "Large" ↔ 2 ≤ ext ∨ 15 < tot) ∧
        (coverageSizeOf ext tot = "Small" ↔ ¬(2 ≤ ext ∨ 15 < tot) ∧ ext = 0 ∧ tot ≤ 5) ∧
        (coverageSizeOf ext tot = "Medium" ↔ ¬(2 ≤ ext ∨ 15 < tot) ∧ ¬(ext = 0 ∧ tot ≤ 5))) ∧
    (∀ ext tot : Int, 2 ≤ ext → tot ≤ 5 → coverageSizeOf ext tot = "Large") ∧
    objGet (extractFeatures rawEmpty) ("coverage_size") = some (JSVal.str ("Small")) := by
  refine ⟨fun raw => rfl, ?_, ?_, rfl⟩
  · intro ext tot
    unfold coverageSizeOf
    split_ifs with h1 h2
    · exact ⟨iff_of_true rfl h1, iff_of_false (by decide) (fun hc => hc.1 h1),
        iff_of_false (by decide) (fun hc => hc.1 h1)⟩
    · exact ⟨iff_of_false (by decide) h1, iff_of_true rfl ⟨h1, h2⟩,
        iff_of_false (by decide) (fun hc => hc.2 h2)⟩
    · exact ⟨iff_of_false (by decide) h1, iff_of_false (by decide) (fun hc => h2 hc.2),
        iff_of_true rfl ⟨h1, h2⟩⟩
  · intro ext tot h1 _
    unfold coverageSizeOf
    rw [if_pos (Or.inl h1)]

/-- C9 counterexample: a raw record with every field absent yields coverage
size Small, not Medium: the absent counts parse to 0, which satisfies the
Small demotion. -/
theorem c9_counterexample :
    objGet (extractFeatures rawEmpty) ("coverage_size") = some (JSVal.str ("Small")) ∧
    JSVal.str ("Small") ≠ JSVal.str ("Medium") :=
  ⟨rfl, by decide⟩

/-- C9 witness: Large takes precedence over Small (extenders 2, total 3). -/
theorem c9_witness : coverageSizeOf 2 3 = "Large" :=
  c9_coverage_size_rules.2.2.1 2 3 (by decide) (by decide)

/-- C10: the ranking stages of `getRecommendations` never write the shared
catalog state — each step writes only the request-local `rankedProducts`
array built fresh from the catalog, so after the full build/sort/re-rank
sequence the catalog component is exactly the input catalog (and the
response records are freshly constructed values of a different type). -/
theorem c10_catalog_unchanged :
    (∀ (scores : List ℚ) (s : ServeState), (serveSteps scores s).catalog = s.catalog) ∧
    (∀ (customer : JSObj) (products : List Product) (nd : NormData)
       (predict : List ℚ → List ℚ),
       (serveSteps (predict (inputVec (preprocessCustomer customer) nd))
         { catalog := products, ranked := [] }).catalog = products) :=
  ⟨fun _ _ => rfl, fun _ _ _ _ => rfl⟩

/-- C2 (amended): for every raw record the extraction (raw mapping plus
one-hot pass) returns a record binding every schema-declared feature key to
a number, and 0 is substituted for missing or unparseable source fields:
every key other than `network_speed` is always a finite number; each
`parseFloat || 0` key is 0 when its same-named source field is absent or
unparseable, `avg_bandwidth_usage` is 0 when `rx_avg_bps` is,
`total_devices` is 0 when both client counts are, `network_speed` is 0 when
its field is absent, the state one-hots are all 0 when `state` is absent,
and on the all-absent record every schema key is 0 except the derived
`coverage_size_Small` one-hot.  The exception: `network_speed` can be NaN
when the regex-matched numeric token itself fails `parseFloat` (a dots-only
token).  Totality of the embedding reflects that the source extraction
never throws. -/
theorem c2_extract_schema_keys :
    (∀ (raw : Raw) (k : String), k ∈ continuousFeatures ++ categoricalFeatures →
       ∃ v, objGet (extractFeatures raw) k = some (JSVal.num v) ∧
         (k ≠ "network_speed" → ∃ q : ℚ, v = some q)) ∧
    (∀ (raw : Raw), ∀ k ∈ floatFeatureKeys, parseFloatRaw (raw k) = none →
       objGet (extractFeatures raw) k = some (JSVal.num (some 0))) ∧
    (∀ raw : Raw, parseFloatRaw (raw ("rx_avg_bps")) = none →
       objGet (extractFeatures raw) ("avg_bandwidth_usage") = some (JSVal.num (some 0))) ∧
    (∀ raw : Raw, parseIntRaw (raw ("wireless_clients_count")) = none →
       parseIntRaw (raw ("wired_clients_count")) = none →
       objGet (extractFeatures raw) ("total_devices") = some (JSVal.num (some 0))) ∧
    (∀ raw : Raw, raw ("network_speed") = none →
       objGet (extractFeatures raw) ("network_speed") = some (JSVal.num (some 0))) ∧
    (∀ raw : Raw, raw ("state") = none → ∀ st ∈ statesList,
       objGet (extractFeatures raw) ("state_" ++ st) = some (JSVal.num (some 0))) ∧
    (∀ (k : String), k ∈ continuousFeatures ++ categoricalFeatures →
       k ≠ "coverage_size_Small" →
       objGet (extractFeatures rawEmpty) k = some (JSVal.num (some 0))) := by
  refine ⟨?_, ?_, ?_, ?_, ?_, ?_, ?_⟩
  · intro raw k hk
    fin_cases hk <;>
      first
        | exact ⟨_, rfl, fun _ => ⟨_, rfl⟩⟩
        | exact ⟨_, rfl, fun h => absurd rfl h⟩
  · intro raw k hk hfail
    have hbase : objGet (extractFeatures raw) k =
        some (JSVal.num (some (jsNumOr0 (parseFloatRaw (raw k))))) := by
      fin_cases hk <;> rfl
    rw [hbase, hfail]
    rfl
  · intro raw hfail
    rw [show objGet (extractFeatures raw) ("avg_bandwidth_usage") =
      some (JSVal.num (some (jsNumOr0 (parseFloatRaw (raw ("rx_avg_bps")))))) from rfl, hfail]
    rfl
  · intro raw h1 h2
    rw [show objGet (extractFeatures raw) ("total_devices") =
      some (JSVal.num (some (((parseIntRaw (raw ("wireless_clients_count"))).getD 0 +
        (parseIntRaw (raw ("wired_clients_count"))).getD 0 : Int) : ℚ))) from rfl, h1, h2]
    simp
  · intro raw hfail
    rw [show objGet (extractFeatures raw) ("network_speed") =
      some (JSVal.num (networkSpeedOf (raw ("network_speed")))) from rfl, hfail]
    rfl
  · intro raw hst st hstmem
    rw [objGet_extract_state raw st hstmem, objGet_processCustomer_state raw st hstmem,
      hst, show stateFlag none st = 0 from rfl]
    simp
  · intro k hk hknot
    fin_cases hk <;> first | exact absurd rfl hknot | rfl

/-- C2 counterexample: the raw record whose `network_speed` is ".M" passes
the regex (numeric token ".", unit "M"), and `parseFloat(".")` is NaN, so the
extracted `network_speed` is NaN — not a finite number and not 0. -/
theorem c2_counterexample :
    objGet (extractFeatures rawDotM) ("network_speed") = some (JSVal.num none) ∧
    ¬ ∃ q : ℚ, objGet (extractFeatures rawDotM) ("network_speed") =
      some (JSVal.num (some q)) := by
  refine ⟨rfl, ?_⟩
  rintro ⟨q, hq⟩
  rw [show objGet (extractFeatures rawDotM) ("network_speed") = some (JSVal.num none)
    from rfl] at hq
  simp at hq

/-- C2 witness: a missing `tx_avg_bps` source field extracts to 0. -/
theorem c2_witness :
    objGet (extractFeatures rawEmpty) ("tx_avg_bps") = some (JSVal.num (some 0)) :=
  c2_extract_schema_keys.2.1 rawEmpty ("tx_avg_bps") (by decide) rfl

/-- C3 (amended): for a string made of a parseable numeric token followed by
a unit, unit G (case-insensitively) multiplies the value by 1000 and unit M
leaves it unchanged — but any other unit also leaves the value unchanged
(the final `else` returns the numeric value, not 0); only an absent field,
an empty string, or a string with no digit-or-dot run immediately followed
by a letter yields 0. -/
theorem c3_network_speed_units :
    (∀ (ds us : List Char) (v : ℚ), ds ≠ [] → (∀ c ∈ ds, isNumChar c = true) →
       us ≠ [] → (∀ c ∈ us, isAlphaJS c = true) → parseFloatL ds = some v →
       ((us.map Char.toUpper = ['G'] →
           networkSpeedOf (some (String.mk (ds ++ us))) = some (v * 1000)) ∧
        (us.map Char.toUpper = ['M'] →
           networkSpeedOf (some (String.mk (ds ++ us))) = some v) ∧
        (us.map Char.toUpper ≠ ['G'] → us.map Char.toUpper ≠ ['M'] →
           networkSpeedOf (some (String.mk (ds ++ us))) = some v))) ∧
    networkSpeedOf none = some 0 ∧
    networkSpeedOf (some ("")) = some 0 ∧
    (∀ s : String, s ≠ "" → matchSpeed s.data = none → networkSpeedOf (some s) = some 0) := by
  refine ⟨?_, rfl, rfl, ?_⟩
  · intro ds us v hds hd hus hu hv
    have key := networkSpeedOf_match (s := String.mk (ds ++ us)) rfl hds hd hus hu
    refine ⟨?_, ?_, ?_⟩
    · intro hG
      have hM : us.map Char.toUpper ≠ ['M'] := by
        rw [hG]
        decide
      rw [key, if_neg hM, if_pos hG, hv]
      rfl
    · intro hM
      rw [key, if_pos hM, hv]
    · intro hG hM
      rw [key, if_neg hM, if_neg hG, hv]
  · intro s hne hm
    simp only [networkSpeedOf]
    rw [if_neg hne, hm]

/-- C3 counterexample: the claim says an unrecognized unit suffix yields 0,
but "500K" — numeric token "500", unit "K" — yields 500. -/
theorem c3_counterexample :
    networkSpeedOf (some ("500K")) = some 500 ∧ (500 : ℚ) ≠ 0 := by
  constructor
  · rw [show networkSpeedOf (some ("500K")) = parseFloatL ['5', '0', '0'] from rfl]
    rw [show parseFloatL ['5', '0', '0'] =
      some (((1 : Int) : ℚ) * (((500 : ℕ) : ℚ) + ((0 : ℕ) : ℚ) / (10 : ℚ) ^ (0 : ℕ)) *
        (10 : ℚ) ^ ((0 : Int))) from rfl]
    norm_num
  · norm_num

/-- C3 witness: the G branch at "2G". -/
theorem c3_witness :
    networkSpeedOf (some (String.mk (['2'] ++ ['G']))) = some (2 * 1000) := by
  have hp : parseFloatL ['2'] = some 2 := by
    rw [show parseFloatL ['2'] =
      some (((1 : Int) : ℚ) * (((2 : ℕ) : ℚ) + ((0 : ℕ) : ℚ) / (10 : ℚ) ^ (0 : ℕ)) *
        (10 : ℚ) ^ ((0 : Int))) from rfl]
    norm_num
  exact (c3_network_speed_units.1 ['2'] ['G'] 2 (by decide) (by decide) (by decide)
    (by decide) hp).1 (by decide)

/-- C4: the sort of `getRecommendations` is stable on score ties.  In the
sorted-but-not-yet-reranked array, each element still carries its temporary
rank `catalog position + 1`, so the statement says: for two output positions
i < j holding equal scores, the element at i comes from an earlier catalog
position than the element at j.  The hypothesis `scores.length =
products.length` restricts to the regime where every catalog item has a
model score (out of it the JS comparator would see `undefined`). -/
theorem c4_stable_tie_order (products : List Product) (scores : List ℚ)
    (hlen : scores.length = products.length) (i j : ℕ)
    (hi : i < (sortScored (mkRankedFrom scores 0 products)).length)
    (hj : j < (sortScored (mkRankedFrom scores 0 products)).length)
    (hij : i < j)
    (hs : ((sortScored (mkRankedFrom scores 0 products)).get ⟨i, hi⟩).score =
          ((sortScored (mkRankedFrom scores 0 products)).get ⟨j, hj⟩).score) :
    ((sortScored (mkRankedFrom scores 0 products)).get ⟨i, hi⟩).rank <
    ((sortScored (mkRankedFrom scores 0 products)).get ⟨j, hj⟩).rank := by
  have hp := pairwise_sortScored (mkRankedFrom_pairwise scores 0 products)
  have hij2 := List.pairwise_iff_get.mp hp ⟨i, hi⟩ ⟨j, hj⟩ hij
  simp only [ordD] at hij2
  rcases hij2 with hlt | ⟨heq, hrank⟩
  · exact absurd hs (ne_of_gt hlt)
  · exact hrank

/-- C4 witness: catalog [A, B, C] with scores [1, 2, 1]; the two score-1
items A (catalog position 0) and C (position 2) land at output positions 1
and 2 in catalog order. -/
theorem c4_witness :
    ((sortScored (mkRankedFrom scores4 0 prods4)).get ⟨1, by decide⟩).rank <
    ((sortScored (mkRankedFrom scores4 0 prods4)).get ⟨2, by decide⟩).rank :=
  c4_stable_tie_order prods4 scores4 (by decide) 1 2 (by decide) (by decide)
    (by decide) (by decide)

/-- C5: for a non-empty catalog of N products and an aligned score array the
ranked array has exactly N entries, its rank fields read 1, 2, ..., N in
order (a dense permutation of 1..N, each rank equal to one plus the sorted
position), and its product names are a permutation of the catalog names —
no item is filtered, zero-scored ones included. -/
theorem c5_dense_ranking (products : List Product) (scores : List ℚ)
    (hne : products ≠ []) (hlen : scores.length = products.length) :
    ((serveSteps scores { catalog := products, ranked := [] }).ranked).length =
      products.length ∧
    ((serveSteps scores { catalog := products, ranked := [] }).ranked).map
      (fun r => r.rank) = List.range' 1 products.length ∧
    List.Perm
      (((serveSteps scores { catalog := products, ranked := [] }).ranked).map
        (fun r => r.productName))
      (products.map (fun p => p.name)) := by
  have hserve : (serveSteps scores { catalog := products, ranked := [] }).ranked =
      rankUpdate (sortScored (mkRankedFrom scores 0 products)) := rfl
  have hlen2 : (sortScored (mkRankedFrom scores 0 products)).length = products.length := by
    rw [sortScored_length, mkRankedFrom_length]
  refine ⟨?_, ?_, ?_⟩
  · rw [hserve, rankUpdate, rankUpdateFrom_length, hlen2]
  · rw [hserve, rankUpdate, rankUpdateFrom_map_rank, hlen2]
  · rw [hserve, rankUpdate, rankUpdateFrom_map_name]
    have h2 := (sortScored_perm (mkRankedFrom scores 0 products)).map
      (fun r => r.productName)
    rw [mkRankedFrom_map_name] at h2
    exact h2

/-- C5 witness. -/
theorem c5_witness :
    ((serveSteps scores4 { catalog := prods4, ranked := [] }).ranked).length =
      prods4.length ∧
    ((serveSteps scores4 { catalog := prods4, ranked := [] }).ranked).map
      (fun r => r.rank) = List.range' 1 prods4.length ∧
    List.Perm
      (((serveSteps scores4 { catalog := prods4, ranked := [] }).ranked).map
        (fun r => r.productName))
      (prods4.map (fun p => p.name)) :=
  c5_dense_ranking prods4 scores4 (by decide) (by decide)
